import Mathlib

/-!
Verification development for the ezcad2-wscad automation pipeline.

Shallow embedding of the queue/scheduler (src/queue_manager.py), the
processor (src/processor.py), the external-process controllers
(src/ezcad_controller.py and src/ezcad_controller_compat.py), the
directory watcher (src/watcher.py) and the configuration manager
(src/config_manager.py), together with theorems settling the spec
claims about these components.

Machine-level conventions: Python strings are `String` values compared
code-point-wise; Python dicts keyed by strings are association lists in
insertion order (updates replace in place, fresh keys append);
Python exceptions are `Except String` values carrying `str(e)`.
-/

namespace Ezcad

/-! ## Python string primitives

Lean core string functions (`splitOn`, `trim`, `toLower`, the `≤` on
`String`) are not kernel-reducible, so the Python string operations the
sources use are re-implemented structurally over `List Char` with the
exact CPython semantics.
-/

/-- Semantics of Python `str.lower` on one ASCII character (sources only
lower ASCII command names and config keys). -/
def charLower (c : Char) : Char :=
  if 'A' ≤ c ∧ c ≤ 'Z' then Char.ofNat (c.toNat + 32) else c

/-- Python `s.lower()`. -/
def pyLower (s : String) : String := String.mk (s.data.map charLower)

/-- Python string comparison `s1 <= s2` (lexicographic by code point),
as used by `queue.PriorityQueue` when breaking priority ties between
`(priority, job_id)` tuples. -/
def lexLEb : List Char → List Char → Bool
  | [], _ => true
  | _ :: _, [] => false
  | a :: as, b :: bs => if a < b then true else if a = b then lexLEb as bs else false

/-- Helper for `pySplit`: accumulates the current piece (reversed). -/
def splitOnCharAux (sep : Char) : List Char → List Char → List String
  | [], acc => [String.mk acc.reverse]
  | c :: rest, acc =>
    if c = sep then String.mk acc.reverse :: splitOnCharAux sep rest []
    else splitOnCharAux sep rest (c :: acc)

/-- Python `s.split(sep)` for a one-character separator (no maxsplit):
splits at every occurrence, keeping empty pieces. -/
def pySplit (s : String) (sep : Char) : List String := splitOnCharAux sep s.data []

/-- Python `s.strip()`: removes leading and trailing whitespace. -/
def pyStrip (s : String) : String :=
  String.mk (((s.data.dropWhile Char.isWhitespace).reverse.dropWhile Char.isWhitespace).reverse)

/-- Python `s.endswith(suffix)`: case-sensitive suffix test. -/
def pyEndsWith (s suffix : String) : Bool := suffix.data.isSuffixOf s.data

/-- POSIX `os.path.basename`: the part of the path after the last slash. -/
def pyBasename (p : String) : String :=
  String.mk ((p.data.reverse.takeWhile (fun c => c ≠ '/')).reverse)

/-! ## Python dict operations

`dictInsert` is `d[k] = v` on a string-keyed dict kept in insertion
order: an existing key is updated in place, a fresh key is appended.
`dictLookup` is `d.get(k)`. -/

def dictInsert {α : Type} (l : List (String × α)) (k : String) (v : α) :
    List (String × α) :=
  match l with
  | [] => [(k, v)]
  | (a, b) :: t => if a = k then (k, v) :: t else (a, b) :: dictInsert t k v

def dictLookup {α : Type} (l : List (String × α)) (k : String) : Option α :=
  match l with
  | [] => none
  | (a, b) :: t => if a = k then some b else dictLookup t k

/-! ## src/queue_manager.py -/

/-- Status constants of `JobStatus` (queue_manager.py lines 8-14). -/
inductive JobStatus
  | pending
  | running
  | completed
  | failed
  | canceled
deriving DecidableEq, Repr

/-- Result payloads a worker can store on a job. Each constructor is the
shape of one dict the processor returns:
`errDict msg`      = the `{'error': str(e)}` dict of the blanket
                     `except` clauses in processor.py;
`excelEntire`      = the result dict of `Processor._process_entire_file`
                     (`total_rows`, `processed`, `errors`);
`excelBatched`     = the result dict of the batch branch of
                     `Processor.process_excel` (`total_rows`,
                     `processed_rows`, `successful_rows`, `failed_rows`,
                     plus the per-batch dicts);
`ezdOk`/`ezdFail`  = the success/failure dicts of `Processor.process_ezd`. -/
inductive JobResult
  | errDict (msg : String)
  | excelEntire (total_rows : Nat) (processed : Bool) (errors : List String)
  | excelBatched (total_rows processed_rows successful_rows failed_rows : Nat)
      (batches : List (Nat × Nat × Nat × Nat × List String))
  | ezdOk (window_id : String) (file : String)
  | ezdFail (error : String)
deriving DecidableEq, Repr

/-- The id scheme of `Job.__init__` (queue_manager.py line 29):
`f"job_{int(time.time() * 1000)}_{os.path.basename(file_path)}"`,
where `ms` is the creation time in whole milliseconds. -/
def jobId (ms : Nat) (file_path : String) : String :=
  "job_" ++ toString ms ++ "_" ++ pyBasename file_path

/-- A `Job` record (queue_manager.py lines 17-42). `added_time` and the
other timestamps are in milliseconds. -/
structure Job where
  id : String
  file_path : String
  job_type : String
  priority : Int
  status : JobStatus
  added_time : Nat
  start_time : Option Nat
  end_time : Option Nat
  result : Option JobResult
  error : Option String
deriving DecidableEq, Repr

/-- `Job.__init__`: a fresh PENDING record with empty result and error. -/
def mkJob (ms : Nat) (file_path job_type : String) (priority : Int) : Job :=
  { id := jobId ms file_path
    file_path := file_path
    job_type := job_type
    priority := priority
    status := JobStatus.pending
    added_time := ms
    start_time := none
    end_time := none
    result := none
    error := none }

/-- The mutable state of a `QueueManager`: the `jobs` dict
(`job_id -> Job`) and the contents of the `job_queue` priority queue,
as the list of `(priority, job_id)` tuples in the order `add_job`
pushed them. -/
structure QM where
  jobs : List (String × Job)
  job_queue : List (Int × String)
deriving DecidableEq, Repr

/-- `QueueManager.add_job` (lines 74-90): creates the job, stores it
under its id in the `jobs` dict, pushes `(priority, job_id)` onto the
priority queue and returns the id. -/
def addJob (qm : QM) (ms : Nat) (file_path job_type : String) (priority : Int) :
    String × QM :=
  let job := mkJob ms file_path job_type priority
  (job.id,
    { jobs := dictInsert qm.jobs job.id job
      job_queue := qm.job_queue ++ [(priority, job.id)] })

/-- `QueueManager.cancel_job` (lines 100-108): succeeds exactly when the
id is present and the job is PENDING, in which case the status becomes
CANCELED. -/
def cancelJob (qm : QM) (job_id : String) : Bool × QM :=
  match dictLookup qm.jobs job_id with
  | some job =>
    if job.status = JobStatus.pending then
      (true, { qm with jobs := dictInsert qm.jobs job_id { job with status := JobStatus.canceled } })
    else (false, qm)
  | none => (false, qm)

/-- The order in which `queue.PriorityQueue` yields `(priority, job_id)`
tuples: Python tuple comparison, priority first, then the id string. -/
def entryLE (a b : Int × String) : Prop :=
  a.1 < b.1 ∨ (a.1 = b.1 ∧ lexLEb a.2.data b.2.data = true)

instance : DecidableRel entryLE := fun a b => by
  unfold entryLE; infer_instance

/-- The sequence of tuples obtained by draining the `job_queue` heap
after the pushes recorded in `entries` (`_process_jobs` line 191 pops
the heap minimum each time): the unique nondecreasing reordering of the
entries under Python tuple comparison, computed by insertion sort. -/
def processOrder (entries : List (Int × String)) : List (Int × String) :=
  List.insertionSort entryLE entries

/-! ## src/ezcad_controller.py and src/ezcad_controller_compat.py

Both controllers keep `self.instances`, a dict `window_id -> info`
mutated under one lock; only the key set is observable to the claims, so
`Ctrl.instances` is the list of tracked window ids in insertion order.
`Ctrl.closeCalls` is a ghost log of every `close_ezcad` invocation
(appended on entry), used to count close calls.

`Env` fixes the outcomes of the interactions with the external window
that the embedding cannot decide:
`simulated`         — the compat controller's non-Windows / simulated
                      branch is taken (the real controller is
                      `simulated = false`);
`checksOk`          — the pre-dispatch window validation/focus steps of
                      `send_command` succeed;
`windowCloseRaises` — `window.close()` in `close_ezcad` raises;
`saveDialogRaises`  — dismissing the save dialog in `close_ezcad`
                      raises (swallowed by its inner `except: pass`). -/

structure Ctrl where
  instances : List String
  closeCalls : List String
deriving DecidableEq, Repr

structure Env where
  simulated : Bool
  checksOk : Bool
  windowCloseRaises : Bool
  saveDialogRaises : Bool
deriving DecidableEq, Repr

/-- `del d[k]` on the key set of a dict (keys are unique, so deleting
the key removes every occurrence). -/
def removeKey (l : List String) (k : String) : List String :=
  l.filter (fun x => x ≠ k)

/-- `start_ezcad`: `freshWid` is the window id the poll loop assigns
when it connects to the launched window (`None` when the executable is
missing, an instance is already running, or the window never appears).
On success the id is added to `instances`. -/
def startEzcad (ctrl : Ctrl) (freshWid : Option String) : Option String × Ctrl :=
  match freshWid with
  | none => (none, ctrl)
  | some w => (some w, { ctrl with instances := ctrl.instances ++ [w] })

/-- `close_ezcad` (ezcad_controller.py lines 192-222,
ezcad_controller_compat.py lines 180-227): unknown id fails; the
simulated branch always removes; otherwise `window.close()` raising
makes the whole inner `try` fail (returns failure, id stays tracked),
while a failing save-dialog dismissal is swallowed and the id is removed
regardless. -/
def closeEzcad (env : Env) (ctrl : Ctrl) (wid : String) : Bool × Ctrl :=
  let c : Ctrl := { ctrl with closeCalls := ctrl.closeCalls ++ [wid] }
  if wid ∈ c.instances then
    if env.simulated then (true, { c with instances := removeKey c.instances wid })
    else if env.windowCloseRaises then (false, c)
    else (true, { c with instances := removeKey c.instances wid })
  else (false, c)

/-- `send_command` (ezcad_controller.py lines 118-190,
ezcad_controller_compat.py lines 242-285): unknown id fails; the
simulated branch reports success for every command string; the real
branch fails when the window validation/focus steps fail, then
dispatches on `command.lower()` with only `red` and `mark` recognized.
The tracked session collection is never mutated. -/
def sendCommand (env : Env) (ctrl : Ctrl) (wid : String) (command : String) :
    Bool × Ctrl :=
  if wid ∈ ctrl.instances then
    if env.simulated then (true, ctrl)
    else if env.checksOk = false then (false, ctrl)
    else if pyLower command = "red" then (true, ctrl)
    else if pyLower command = "mark" then (true, ctrl)
    else (false, ctrl)
  else (false, ctrl)

/-! ## src/processor.py

Data frames are abstracted to their list of row indices (the only thing
the processor reads from them). `faultRow = some i` injects an exception
into the row loop of `_process_batch` when it reaches row `i`, modelling
the possibility that an iteration of the loop body raises (the spec
settles the close-session claim by fault injection); `none` is the
unmodified source behaviour, whose loop body never raises. -/

/-- The row loop of `Processor._process_batch` (lines 114-128):
index divisible by 3 simulates a failure, otherwise the row succeeds and
a `mark` command is sent (return value ignored). Accumulates
`(rows_successful, rows_failed, errors)`. -/
def batchLoop (env : Env) (ctrl : Ctrl) (wid : String) (rows : List Nat)
    (faultRow : Option Nat) (succ fail : Nat) (errs : List String) :
    Except String (Nat × Nat × List String) × Ctrl :=
  match rows with
  | [] => (Except.ok (succ, fail, errs), ctrl)
  | i :: rest =>
    if faultRow = some i then (Except.error "injected fault", ctrl)
    else if i % 3 = 0 then
      batchLoop env ctrl wid rest faultRow succ (fail + 1)
        (errs ++ ["Simulated error for row " ++ toString i])
    else
      let r := sendCommand env ctrl wid "mark"
      batchLoop env r.2 wid rest faultRow (succ + 1) fail errs

/-- A batch result dict of `_process_batch`:
`(batch_index, rows_processed, rows_successful, rows_failed, errors)`. -/
def mkBatchRes (bi rp rs rf : Nat) (errors : List String) :
    Nat × Nat × Nat × Nat × List String :=
  (bi, rp, rs, rf, errors)

/-- `Processor._process_batch` (lines 85-134). `cfgEzd` is the
configured `last_ezd_file` when set and existing, `freshWid` the
`start_ezcad` outcome. When the start succeeded the row loop runs inside
`try`, and the `finally` block always invokes `close_ezcad` exactly
once, whether the loop returned or raised; a raise then propagates to
the caller. -/
def processBatch (env : Env) (cfgEzd : Option String) (ctrl : Ctrl)
    (batch : List Nat) (batch_index : Nat) (freshWid : Option String)
    (faultRow : Option Nat) :
    Except String (Nat × Nat × Nat × Nat × List String) × Ctrl :=
  match cfgEzd with
  | none =>
    (Except.ok (mkBatchRes batch_index batch.length 0 batch.length
      ["No EZD file configured for processing"]), ctrl)
  | some _ =>
    match startEzcad ctrl freshWid with
    | (none, ctrl₁) =>
      (Except.ok (mkBatchRes batch_index batch.length 0 batch.length
        ["Failed to start EZCAD"]), ctrl₁)
    | (some wid, ctrl₁) =>
      let r := batchLoop env ctrl₁ wid batch faultRow 0 0 []
      let c := closeEzcad env r.2 wid
      match r.1 with
      | Except.ok (s, f, es) =>
        (Except.ok (mkBatchRes batch_index batch.length s f es), c.2)
      | Except.error m => (Except.error m, c.2)

/-- `ExcelHandler.get_batch_data` (excel_handler.py lines 96-111):
slices the rows into consecutive chunks of `batch_size` (meaningful for
`batch_size ≥ 1`; Python raises on a zero step). Fuel-based recursion,
with enough fuel for every `batch_size ≥ 1`. -/
def chunksAux (fuel : Nat) (bs : Nat) (l : List Nat) : List (List Nat) :=
  match fuel, l with
  | _, [] => []
  | 0, _ :: _ => []
  | Nat.succ f, l => l.take bs :: chunksAux f bs (l.drop bs)

def getBatchData (bs : Nat) (l : List Nat) : List (List Nat) :=
  chunksAux l.length bs l

/-- The batch loop of `Processor.process_excel` (lines 61-73) with
`stop_requested` false: runs `_process_batch` on each batch (each batch
attempt gets the next entry of `wids` as its `start_ezcad` outcome),
accumulating processed/successful/failed counts and the batch dicts; an
exception escaping a batch propagates. -/
def runBatches (env : Env) (cfgEzd : Option String) (ctrl : Ctrl)
    (batches : List (List Nat)) (wids : List (Option String))
    (faultRow : Option Nat) (bidx : Nat) (accP accS accF : Nat)
    (accB : List (Nat × Nat × Nat × Nat × List String)) :
    Except String (Nat × Nat × Nat × List (Nat × Nat × Nat × Nat × List String)) × Ctrl :=
  match batches with
  | [] => (Except.ok (accP, accS, accF, accB), ctrl)
  | b :: rest =>
    let w := match wids with | [] => none | x :: _ => x
    match processBatch env cfgEzd ctrl b bidx w faultRow with
    | (Except.error m, ctrl₁) => (Except.error m, ctrl₁)
    | (Except.ok br, ctrl₁) =>
      runBatches env cfgEzd ctrl₁ rest wids.tail faultRow (bidx + 1)
        (accP + br.2.1) (accS + br.2.2.1) (accF + br.2.2.2.1) (accB ++ [br])

/-- `Processor._process_entire_file` (lines 136-172): missing EZD
config or a failed start yield a result dict with `processed = False`;
otherwise one `mark` command is sent and the instance closed. -/
def processEntireFile (env : Env) (cfgEzd : Option String) (ctrl : Ctrl)
    (rows : List Nat) (freshWid : Option String) : JobResult × Ctrl :=
  match cfgEzd with
  | none =>
    (JobResult.excelEntire rows.length false ["No EZD file configured for processing"], ctrl)
  | some _ =>
    match startEzcad ctrl freshWid with
    | (none, ctrl₁) =>
      (JobResult.excelEntire rows.length false ["Failed to start EZCAD"], ctrl₁)
    | (some wid, ctrl₁) =>
      let r := sendCommand env ctrl₁ wid "mark"
      let c := closeEzcad env r.2 wid
      (JobResult.excelEntire rows.length true [], c.2)

/-- `Processor.process_excel` (lines 26-83). `loadResult` is the
outcome of `ExcelHandler.load_excel` (`none` = returned `None`, which
the body turns into a `ValueError`). Everything runs inside
`try ... except Exception as e: return {'error': str(e)}`, so this
function always returns a value and never raises — an internal
exception comes back as the `errDict` result. -/
def processExcel (env : Env) (excel_file : String) (loadResult : Option (List Nat))
    (batchProcess : Bool) (batchSize : Nat) (cfgEzd : Option String) (ctrl : Ctrl)
    (wids : List (Option String)) (entireWid : Option String)
    (faultRow : Option Nat) : JobResult × Ctrl :=
  match loadResult with
  | none => (JobResult.errDict ("Failed to load Excel file: " ++ excel_file), ctrl)
  | some rows =>
    if batchProcess then
      match runBatches env cfgEzd ctrl (getBatchData batchSize rows) wids faultRow 0 0 0 0 [] with
      | (Except.error m, ctrl₁) => (JobResult.errDict m, ctrl₁)
      | (Except.ok (p, s, f, bs), ctrl₁) =>
        (JobResult.excelBatched rows.length p s f bs, ctrl₁)
    else
      processEntireFile env cfgEzd ctrl rows entireWid

/-- `Processor.process_ezd` (lines 174-208): starts EZCAD on the file;
on success records the file as `last_ezd_file` in the config (third
component) and returns the success dict — the started session is left
open and `close_ezcad` is not invoked; on failure returns the failure
dict. The blanket `except` is unreachable here (nothing below it
raises). -/
def processEzd (ctrl : Ctrl) (ezd_file : String) (freshWid : Option String)
    (lastEzd : Option String) : JobResult × Ctrl × Option String :=
  match startEzcad ctrl freshWid with
  | (some wid, ctrl₁) => (JobResult.ezdOk wid ezd_file, ctrl₁, some ezd_file)
  | (none, ctrl₁) => (JobResult.ezdFail "Failed to open EZD file", ctrl₁, lastEzd)

/-! ## The worker loop of `QueueManager._process_jobs` (lines 184-231) -/

/-- The dispatch on `job.job_type` (lines 205-210): `excel` and `ezd`
return the value of the corresponding processor call (`excelRes` and
`ezdRes` stand for those values — both calls catch internally and never
raise), any other type raises `ValueError`. -/
def workerDispatch (job_type : String) (excelRes ezdRes : JobResult) :
    Except String JobResult :=
  if job_type = "excel" then Except.ok excelRes
  else if job_type = "ezd" then Except.ok ezdRes
  else Except.error ("Unknown job type: " ++ job_type)

/-- The per-job mutations of the worker (lines 199-221): RUNNING with
`start_time` stamped, then either the result is stored and the status
becomes COMPLETED, or the exception message is stored in `error` and the
status becomes FAILED; `end_time` is stamped either way. -/
def runWorkerBody (j : Job) (body : Except String JobResult) (t₁ t₂ : Nat) : Job :=
  let j₁ := { j with status := JobStatus.running, start_time := some t₁ }
  match body with
  | Except.ok v =>
    { j₁ with result := some v, status := JobStatus.completed, end_time := some t₂ }
  | Except.error msg =>
    { j₁ with error := some msg, status := JobStatus.failed, end_time := some t₂ }

/-- The successive observable states of a job record while a worker
runs it and the processor call returns `v`: `_process_jobs` mutates the
live record (the one `get_job`/`get_all_jobs` hand out) one unlocked
assignment at a time, so each of lines 201 (`status = RUNNING`),
202 (`start_time`), 212 (`result`), 213 (`status = COMPLETED`) and
221 (`end_time`) produces a distinct observable state. The head is the
state at dequeue. -/
def workerTraceOk (j : Job) (v : JobResult) (t₁ t₂ : Nat) : List Job :=
  [j,
   { j with status := JobStatus.running },
   { j with status := JobStatus.running, start_time := some t₁ },
   { j with status := JobStatus.running, start_time := some t₁, result := some v },
   { j with status := JobStatus.completed, start_time := some t₁, result := some v },
   { j with
     status := JobStatus.completed,
     start_time := some t₁,
     result := some v,
     end_time := some t₂ }]

/-- The successive observable states of a job record while a worker
runs it and the job body raises `msg`: lines 201, 202, then 217
(`error`), 218 (`status = FAILED`) and 221 (`end_time`) of
`_process_jobs`, again one unlocked assignment per state. -/
def workerTraceErr (j : Job) (msg : String) (t₁ t₂ : Nat) : List Job :=
  [j,
   { j with status := JobStatus.running },
   { j with status := JobStatus.running, start_time := some t₁ },
   { j with status := JobStatus.running, start_time := some t₁, error := some msg },
   { j with status := JobStatus.failed, start_time := some t₁, error := some msg },
   { j with
     status := JobStatus.failed,
     start_time := some t₁,
     error := some msg,
     end_time := some t₂ }]

/-- The claimed record invariant: `result` and `error` are never both
populated, and both are absent while the job is PENDING or RUNNING. -/
def jobInv (j : Job) : Prop :=
  (j.result = none ∨ j.error = none)
  ∧ ((j.status = JobStatus.pending ∨ j.status = JobStatus.running) →
      (j.result = none ∧ j.error = none))

instance (j : Job) : Decidable (jobInv j) := by
  unfold jobInv; infer_instance

/-! ## src/watcher.py -/

/-- `DirectoryWatcher._parse_patterns` (lines 128-140): split the
configured pattern string on `;`, strip whitespace, and turn `*.ext`
fragments into `.ext` by dropping the leading star; other fragments are
kept as they are. The empty string yields no patterns. -/
def parsePatterns (pattern_string : String) : List String :=
  if pattern_string = "" then []
  else (pySplit pattern_string ';').map (fun q =>
    let p := pyStrip q
    match p.data with
    | '*' :: '.' :: rest => String.mk ('.' :: rest)
    | _ => p)

/-- `FileChangeHandler._is_valid_file` (lines 36-39): the path matches
when `path.endswith(pattern)` holds for some configured pattern (the
computed `ext` local is unused in the source). -/
def isValidFile (file_patterns : List String) (path : String) : Bool :=
  file_patterns.any (fun pat => pyEndsWith path pat)

/-! ## src/config_manager.py

A `configparser.ConfigParser` is its list of sections in insertion
order, each section its list of options; option keys go through
`optionxform` (lower-casing) when set. The JSON profile file written by
`save_profile` round-trips dicts exactly, so a profile is the same
association-list shape. -/

abbrev ConfigData := List (String × List (String × String))

/-- `configparser` default `optionxform`: keys are lower-cased. -/
def optionxform (k : String) : String := pyLower k

def hasSection (c : ConfigData) (s : String) : Bool := (dictLookup c s).isSome

/-- `add_section`: appends a fresh empty section. -/
def addSection (c : ConfigData) (s : String) : ConfigData := c ++ [(s, [])]

/-- `parser.set(s, k, v)` on an existing section: the option `k`
(through `optionxform`) is set in section `s`. -/
def cfgSet (c : ConfigData) (s k v : String) : ConfigData :=
  c.map (fun sec => if sec.1 = s then (sec.1, dictInsert sec.2 (optionxform k) v) else sec)

/-- One iteration of the section loop of `load_profile` (lines
119-124): ensure the section exists, then set every option of the
profile section in order (values are strings already, `str` is the
identity on them). -/
def loadSection (c : ConfigData) (s : String) (opts : List (String × String)) :
    ConfigData :=
  opts.foldl (fun acc kv => cfgSet acc s kv.1 kv.2)
    (if hasSection c s then c else addSection c s)

/-- The fresh parser `load_profile` builds from a profile: every
section except `Metadata`, loaded in order into an initially empty
configuration. -/
def loadProfileData (profile : List (String × List (String × String))) : ConfigData :=
  profile.foldl
    (fun acc sec => if sec.1 = "Metadata" then acc else loadSection acc sec.1 sec.2) []

/-- `load_profile` (lines 106-128): the active configuration is
replaced wholesale by the parser built from the profile; the previous
configuration does not contribute. -/
def loadProfileInto (_old : ConfigData) (profile : List (String × List (String × String))) :
    ConfigData :=
  loadProfileData profile

/-- The metadata dict `save_profile` adds (lines 93-97). -/
def profileMeta (name ts : String) : List (String × String) :=
  [("created", ts), ("profile_name", name)]

/-- `save_profile` (lines 83-104): the profile dict is the sections of
the configuration plus the `Metadata` entry (replacing a section of that
name if one exists). -/
def saveProfileData (c : ConfigData) (name ts : String) :
    List (String × List (String × String)) :=
  dictInsert c "Metadata" (profileMeta name ts)

/-- Well-formedness of a configuration that arose through
`configparser`: section names are distinct, and inside each section the
option keys are distinct and already in `optionxform` normal form. -/
def wfSection (opts : List (String × String)) : Prop :=
  (opts.map Prod.fst).Nodup ∧ ∀ kv ∈ opts, optionxform kv.1 = kv.1

def wfConfig (c : ConfigData) : Prop :=
  (c.map Prod.fst).Nodup ∧ ∀ sec ∈ c, wfSection sec.2

instance (opts : List (String × String)) : Decidable (wfSection opts) := by
  unfold wfSection; infer_instance

instance (c : ConfigData) : Decidable (wfConfig c) := by
  unfold wfConfig; infer_instance

/-- The default configuration of `_create_default_config` (lines
29-58). -/
def defaultConfig : ConfigData :=
  [("Paths",
    [("ezcad_exe", ""), ("last_excel_dir", ""), ("last_ezd_dir", ""), ("watch_directory", "")]),
   ("Settings",
    [("auto_start", "false"), ("minimize_on_start", "false"), ("auto_trigger", "false"),
     ("batch_process", "false"), ("max_concurrent_processes", "1"),
     ("file_pattern_excel", "*.xls;*.xlsx"), ("file_pattern_ezd", "*.ezd")]),
   ("Monitoring",
    [("enabled", "false"), ("interval_seconds", "5"), ("recursive", "false")])]

/-! ## Helper lemmas -/

theorem lexLEb_total : ∀ (a b : List Char), lexLEb a b = true ∨ lexLEb b a = true
  | [], _ => Or.inl rfl
  | _ :: _, [] => Or.inr rfl
  | a :: as, b :: bs => by
    rcases lt_trichotomy a b with h | h | h
    · left; simp [lexLEb, h]
    · subst h
      rcases lexLEb_total as bs with ih | ih
      · left; simp [lexLEb, ih]
      · right; simp [lexLEb, ih]
    · right; simp [lexLEb, h]

theorem lexLEb_cons (a b : Char) (as bs : List Char) :
    lexLEb (a :: as) (b :: bs) = true ↔ a < b ∨ (a = b ∧ lexLEb as bs = true) := by
  rw [lexLEb]
  split_ifs with h₁ h₂
  · simp [h₁]
  · simp [h₁, h₂]
  · simp [h₁, h₂]

theorem lexLEb_trans : ∀ (a b c : List Char),
    lexLEb a b = true → lexLEb b c = true → lexLEb a c = true
  | [], _, _, _, _ => rfl
  | _ :: _, [], _, h, _ => by simp [lexLEb] at h
  | _ :: _, _ :: _, [], _, h => by simp [lexLEb] at h
  | a :: as, b :: bs, c :: cs, h₁, h₂ => by
    rw [lexLEb_cons] at h₁ h₂ ⊢
    rcases h₁ with h₁ | ⟨rfl, h₁⟩
    · rcases h₂ with h₂ | ⟨rfl, h₂⟩
      · exact Or.inl (lt_trans h₁ h₂)
      · exact Or.inl h₁
    · rcases h₂ with h₂ | ⟨rfl, h₂⟩
      · exact Or.inl h₂
      · exact Or.inr ⟨rfl, lexLEb_trans as bs cs h₁ h₂⟩

instance : IsTotal (Int × String) entryLE :=
  ⟨fun a b => by
    rcases lt_trichotomy a.1 b.1 with h | h | h
    · exact Or.inl (Or.inl h)
    · rcases lexLEb_total a.2.data b.2.data with hl | hl
      · exact Or.inl (Or.inr ⟨h, hl⟩)
      · exact Or.inr (Or.inr ⟨h.symm, hl⟩)
    · exact Or.inr (Or.inl h)⟩

instance : IsTrans (Int × String) entryLE :=
  ⟨fun a b c hab hbc => by
    rcases hab with hab | ⟨hab, hab'⟩
    · rcases hbc with hbc | ⟨hbc, _⟩
      · exact Or.inl (lt_trans hab hbc)
      · exact Or.inl (hbc ▸ hab)
    · rcases hbc with hbc | ⟨hbc, hbc'⟩
      · exact Or.inl (hab ▸ hbc)
      · exact Or.inr ⟨hab.trans hbc, lexLEb_trans _ _ _ hab' hbc'⟩⟩

theorem entryLE_priority_le {a b : Int × String} (h : entryLE a b) : a.1 ≤ b.1 := by
  rcases h with h | ⟨h, _⟩
  · exact le_of_lt h
  · exact le_of_eq h

theorem dictLookup_dictInsert_self {α : Type} (l : List (String × α)) (k : String) (v : α) :
    dictLookup (dictInsert l k v) k = some v := by
  induction l with
  | nil => simp [dictInsert, dictLookup]
  | cons p t ih =>
    obtain ⟨a, b⟩ := p
    by_cases h : a = k
    · simp [dictInsert, dictLookup, h]
    · simp [dictInsert, dictLookup, h, ih]

theorem dictInsert_of_not_mem {α : Type} (l : List (String × α)) (k : String) (v : α)
    (h : k ∉ l.map Prod.fst) : dictInsert l k v = l ++ [(k, v)] := by
  induction l with
  | nil => rfl
  | cons p t ih =>
    obtain ⟨a, b⟩ := p
    simp only [List.map_cons, List.mem_cons] at h
    push_neg at h
    simp [dictInsert, Ne.symm h.1, ih h.2]

theorem mem_dictInsert {α : Type} (l : List (String × α)) (k : String) (v : α)
    (x : String × α) (h : x ∈ dictInsert l k v) : x = (k, v) ∨ x ∈ l := by
  induction l with
  | nil => simpa [dictInsert] using h
  | cons p t ih =>
    obtain ⟨a, b⟩ := p
    by_cases hk : a = k
    · simp only [dictInsert, if_pos hk, List.mem_cons] at h
      rcases h with h | h
      · exact Or.inl h
      · exact Or.inr (List.mem_cons_of_mem _ h)
    · simp only [dictInsert, if_neg hk, List.mem_cons] at h
      rcases h with h | h
      · exact Or.inr (h ▸ List.mem_cons_self _ _)
      · rcases ih h with h' | h'
        · exact Or.inl h'
        · exact Or.inr (List.mem_cons_of_mem _ h')

theorem filter_dictInsert_of_false {α : Type} (p : String × α → Bool)
    (l : List (String × α)) (k : String) (v : α) (hp : ∀ b : α, p (k, b) = false) :
    (dictInsert l k v).filter p = l.filter p := by
  induction l with
  | nil => simp [dictInsert, hp]
  | cons q t ih =>
    obtain ⟨a, b⟩ := q
    by_cases h : a = k
    · subst h
      rw [dictInsert, if_pos rfl, List.filter_cons, List.filter_cons, hp, hp]
      simp
    · rw [dictInsert, if_neg h, List.filter_cons, List.filter_cons, ih]

theorem sendCommand_state (env : Env) (ctrl : Ctrl) (wid command : String) :
    (sendCommand env ctrl wid command).2 = ctrl := by
  unfold sendCommand
  split_ifs <;> rfl

theorem batchLoop_state (env : Env) (wid : String) :
    ∀ (rows : List Nat) (ctrl : Ctrl) (faultRow : Option Nat) (succ fail : Nat)
      (errs : List String),
      (batchLoop env ctrl wid rows faultRow succ fail errs).2 = ctrl := by
  intro rows
  induction rows with
  | nil => intro ctrl faultRow succ fail errs; rfl
  | cons i rest ih =>
    intro ctrl faultRow succ fail errs
    rw [batchLoop]
    split_ifs with h₁ h₂
    · rfl
    · exact ih ctrl faultRow succ (fail + 1) (errs ++ ["Simulated error for row " ++ toString i])
    · show (batchLoop env (sendCommand env ctrl wid "mark").2 wid rest faultRow
        (succ + 1) fail errs).2 = ctrl
      rw [sendCommand_state]
      exact ih ctrl faultRow (succ + 1) fail errs

theorem string_data_append (s t : String) : (s ++ t).data = s.data ++ t.data := by
  cases s; cases t; rfl

theorem string_eq_iff_data (s t : String) : s = t ↔ s.data = t.data := by
  cases s; cases t
  exact ⟨fun h => congrArg String.data h, fun h => congrArg String.mk h⟩

/-! ## Claim C1 -/

/-- Claim C1 (amended): draining the job queue yields the pushed
`(priority, job_id)` entries reordered nondecreasingly under Python
tuple comparison — priorities are nondecreasing, and equal priorities
are ordered by the job-id string, not by arrival; the id order agrees
with arrival order exactly when the ids increase with arrival, as in
the spec example `[2,1,1,3]` when each job is created in a distinct
millisecond. -/
theorem queue_processing_order_amended :
    (∀ entries : List (Int × String),
      (processOrder entries).Perm entries
      ∧ (processOrder entries).Sorted entryLE
      ∧ (processOrder entries).Sorted (fun a b => a.1 ≤ b.1))
    ∧ processOrder
        [((2 : Int), jobId 100 "/w/c.xls"), (1, jobId 101 "/w/y.xls"),
         (1, jobId 102 "/w/a.xls"), (3, jobId 103 "/w/d.xls")]
      = [((1 : Int), jobId 101 "/w/y.xls"), (1, jobId 102 "/w/a.xls"),
         (2, jobId 100 "/w/c.xls"), (3, jobId 103 "/w/d.xls")] := by
  constructor
  · intro entries
    refine ⟨List.perm_insertionSort entryLE entries,
      List.sorted_insertionSort entryLE entries, ?_⟩
    exact (List.sorted_insertionSort entryLE entries).imp entryLE_priority_le
  · decide

/-- Claim C1 counterexample: four jobs with priorities `[2, 1, 1, 3]`
created in the same millisecond (100), the first equal-priority job on
`z.xls` and the second on `a.xls`. The queue is drained with the second
equal-priority arrival first, because ties are broken by the job-id
string, so the claimed FIFO order among equal priorities fails. -/
theorem queue_processing_fifo_cex :
    processOrder
        [((2 : Int), jobId 100 "/w/c.xls"), (1, jobId 100 "/w/z.xls"),
         (1, jobId 100 "/w/a.xls"), (3, jobId 100 "/w/d.xls")]
      = [((1 : Int), jobId 100 "/w/a.xls"), (1, jobId 100 "/w/z.xls"),
         (2, jobId 100 "/w/c.xls"), (3, jobId 100 "/w/d.xls")]
    ∧ processOrder
        [((2 : Int), jobId 100 "/w/c.xls"), (1, jobId 100 "/w/z.xls"),
         (1, jobId 100 "/w/a.xls"), (3, jobId 100 "/w/d.xls")]
      ≠ [((1 : Int), jobId 100 "/w/z.xls"), (1, jobId 100 "/w/a.xls"),
         (2, jobId 100 "/w/c.xls"), (3, jobId 100 "/w/d.xls")] := by
  decide

/-! ## Claim C10 -/

/-- Claim C10 (amended): job ids determine and are determined by the
creation millisecond and the file basename. Two `add_job` calls in the
same millisecond get distinct ids exactly when their basenames differ,
and calls whose millisecond timestamps print as distinct equal-length
decimals (as all realistic epoch timestamps do) always get distinct
ids; a call repeating both the millisecond and the basename reuses the
id and replaces the stored record (see the counterexample). -/
theorem job_id_uniqueness_amended :
    (∀ (ms : Nat) (p₁ p₂ : String),
      jobId ms p₁ = jobId ms p₂ ↔ pyBasename p₁ = pyBasename p₂)
    ∧ (∀ (ms₁ ms₂ : Nat) (p₁ p₂ : String),
        (toString ms₁).length = (toString ms₂).length →
        toString ms₁ ≠ toString ms₂ →
        jobId ms₁ p₁ ≠ jobId ms₂ p₂) := by
  constructor
  · intro ms p₁ p₂
    unfold jobId
    rw [string_eq_iff_data]
    simp only [string_data_append, List.append_assoc]
    rw [List.append_right_inj, List.append_right_inj, List.append_right_inj,
      ← string_eq_iff_data]
  · intro ms₁ ms₂ p₁ p₂ hlen hne h
    apply hne
    unfold jobId at h
    rw [string_eq_iff_data] at h
    simp only [string_data_append] at h
    simp only [List.append_assoc] at h
    have h₂ := List.append_cancel_left h
    have h₃ := List.append_inj h₂ hlen
    exact (string_eq_iff_data _ _).mpr h₃.1

/-- Claim C10 witness: instantiates the amended theorem at two calls in
distinct milliseconds (1000 and 2000) on the same path. -/
theorem job_id_uniqueness_amended_w :
    (toString (1000 : Nat)).length = (toString (2000 : Nat)).length
    ∧ toString (1000 : Nat) ≠ toString (2000 : Nat)
    ∧ jobId 1000 "/x/a.xls" ≠ jobId 2000 "/x/a.xls" :=
  ⟨by decide, by decide,
    job_id_uniqueness_amended.2 1000 2000 "/x/a.xls" "/x/a.xls" (by decide) (by decide)⟩

/-- Claim C10 counterexample: two distinct `add_job` calls in the same
millisecond for files named `a.xls` in different directories return the
same job id, and the second call replaces the record of the first in
the job store (which afterwards holds a single record, the one for
`/y/a.xls`). -/
theorem job_id_collision_cex :
    let qm₀ : QM := { jobs := [], job_queue := [] }
    let r₁ := addJob qm₀ 1000 "/x/a.xls" "excel" 1
    let r₂ := addJob r₁.2 1000 "/y/a.xls" "excel" 1
    r₁.1 = r₂.1
    ∧ r₂.2.jobs = [(jobId 1000 "/y/a.xls", mkJob 1000 "/y/a.xls" "excel" 1)]
    ∧ dictLookup r₂.2.jobs r₁.1 ≠ some (mkJob 1000 "/x/a.xls" "excel" 1) := by
  decide

/-! ## Claim C4 -/

/-- Claim C4: for a job present in the store, `cancel_job` succeeds
exactly when its current status is PENDING (so canceling a RUNNING or
terminal job fails), and after a successful cancel a second cancel of
the same job fails. -/
theorem cancel_iff_pending (qm : QM) (job_id : String) (j : Job)
    (h : dictLookup qm.jobs job_id = some j) :
    ((cancelJob qm job_id).1 = true ↔ j.status = JobStatus.pending)
    ∧ (j.status = JobStatus.pending →
        (cancelJob (cancelJob qm job_id).2 job_id).1 = false) := by
  constructor
  · unfold cancelJob
    rw [h]
    by_cases hp : j.status = JobStatus.pending
    · simp [hp]
    · simp [hp]
  · intro hp
    have h₁ : cancelJob qm job_id
        = (true, { qm with
            jobs := dictInsert qm.jobs job_id { j with status := JobStatus.canceled } }) := by
      unfold cancelJob
      rw [h]
      simp [hp]
    rw [h₁]
    unfold cancelJob
    rw [dictLookup_dictInsert_self]
    simp

/-- Claim C4 witness: a freshly enqueued job is PENDING, its first
cancel succeeds and the second fails. -/
theorem cancel_iff_pending_w :
    dictLookup (addJob { jobs := [], job_queue := [] } 1000 "/a/x.xls" "excel" 1).2.jobs
        "job_1000_x.xls" = some (mkJob 1000 "/a/x.xls" "excel" 1)
    ∧ (((cancelJob (addJob { jobs := [], job_queue := [] } 1000 "/a/x.xls" "excel" 1).2
          "job_1000_x.xls").1 = true
        ↔ (mkJob 1000 "/a/x.xls" "excel" 1).status = JobStatus.pending)
      ∧ ((mkJob 1000 "/a/x.xls" "excel" 1).status = JobStatus.pending →
          (cancelJob
            (cancelJob (addJob { jobs := [], job_queue := [] } 1000 "/a/x.xls" "excel" 1).2
              "job_1000_x.xls").2
            "job_1000_x.xls").1 = false)) :=
  ⟨by decide, cancel_iff_pending _ _ _ (by decide)⟩

/-! ## Claim C5 -/

/-- Claim C5 counterexample: the worker of `_process_jobs` performs
`job.result = result` (line 212) and `job.status = COMPLETED`
(line 213) as two separate unlocked assignments on the live record, so
between them there is an observable state — present in the worker
trace — whose status is still RUNNING while `result` is already
populated; the claimed invariant fails at that state. -/
theorem job_result_error_invariant_cex :
    let j := mkJob 1000 "/a/x.xls" "excel" 1
    let s : Job := { j with
                     status := JobStatus.running,
                     start_time := some 5,
                     result := some (JobResult.excelEntire 3 true []) }
    s ∈ workerTraceOk j (JobResult.excelEntire 3 true []) 5 6
    ∧ s.status = JobStatus.running
    ∧ s.result = some (JobResult.excelEntire 3 true [])
    ∧ ¬ jobInv s := by
  decide

/-- Claim C5 (amended): at every observable state of a job record at
the statement granularity of `_process_jobs` — along the success trace,
the failure trace, and after a cancel of a fresh record — at most one
of `result` and `error` is ever populated, and both are absent while
the status is PENDING; while the status is RUNNING only the field the
running path is about to record can be populated (`result` in the
success path, `error` in the failure path), because each path sets its
field one statement before the terminal status. The traces end in
exactly the record the fused worker body produces. -/
theorem job_result_error_states_amended (j : Job) (v : JobResult) (msg : String)
    (t₁ t₂ : Nat) (h₀ : j.status = JobStatus.pending) (h₁ : j.result = none)
    (h₂ : j.error = none) :
    (∀ s ∈ workerTraceOk j v t₁ t₂,
      (s.result = none ∨ s.error = none)
      ∧ (s.status = JobStatus.pending → s.result = none ∧ s.error = none)
      ∧ (s.status = JobStatus.running → s.error = none))
    ∧ (∀ s ∈ workerTraceErr j msg t₁ t₂,
      (s.result = none ∨ s.error = none)
      ∧ (s.status = JobStatus.pending → s.result = none ∧ s.error = none)
      ∧ (s.status = JobStatus.running → s.result = none))
    ∧ jobInv { j with status := JobStatus.canceled }
    ∧ (workerTraceOk j v t₁ t₂).getLast? = some (runWorkerBody j (Except.ok v) t₁ t₂)
    ∧ (workerTraceErr j msg t₁ t₂).getLast?
        = some (runWorkerBody j (Except.error msg) t₁ t₂) := by
  refine ⟨?_, ?_, ?_, rfl, rfl⟩
  · intro s hs
    simp only [workerTraceOk, List.mem_cons, List.not_mem_nil, or_false] at hs
    rcases hs with rfl | rfl | rfl | rfl | rfl | rfl <;>
      refine ⟨?_, ?_, ?_⟩ <;> simp [h₀, h₁, h₂]
  · intro s hs
    simp only [workerTraceErr, List.mem_cons, List.not_mem_nil, or_false] at hs
    rcases hs with rfl | rfl | rfl | rfl | rfl | rfl <;>
      refine ⟨?_, ?_, ?_⟩ <;> simp [h₀, h₁, h₂]
  · refine ⟨Or.inl h₁, ?_⟩
    intro hor
    simp at hor

/-- Claim C5 witness: instantiates the amended theorem at a fresh
`add_job` record, extracting the invariant after a cancel. -/
theorem job_result_error_states_amended_w :
    (mkJob 1000 "/a/x.xls" "excel" 1).status = JobStatus.pending
    ∧ (mkJob 1000 "/a/x.xls" "excel" 1).result = none
    ∧ (mkJob 1000 "/a/x.xls" "excel" 1).error = none
    ∧ jobInv { mkJob 1000 "/a/x.xls" "excel" 1 with status := JobStatus.canceled } :=
  ⟨rfl, rfl, rfl,
    (job_result_error_states_amended (mkJob 1000 "/a/x.xls" "excel" 1)
      (JobResult.excelEntire 3 true []) "boom" 5 6 rfl rfl rfl).2.2.1⟩

/-- Test fixture: the real (non-simulated) branch with every window
interaction succeeding. -/
def envRealOk : Env :=
  { simulated := false, checksOk := true, windowCloseRaises := false, saveDialogRaises := false }

/-- Test fixture: the real branch where `window.close()` raises. -/
def envCloseRaises : Env :=
  { simulated := false, checksOk := true, windowCloseRaises := true, saveDialogRaises := false }

/-- Test fixture: the simulated branch. -/
def envSim : Env :=
  { simulated := true, checksOk := true, windowCloseRaises := false, saveDialogRaises := false }

theorem closeEzcad_closeCalls (env : Env) (c : Ctrl) (wid : String) :
    (closeEzcad env c wid).2.closeCalls = c.closeCalls ++ [wid] := by
  simp only [closeEzcad]
  split_ifs <;> rfl

/-! ## Claim C6 -/

/-- Claim C6 counterexample: a tracked window whose `window.close()`
call raises. `close_ezcad` returns failure and the window id is still
in the tracked collection afterwards, against the claim that the
session is removed even when the close interaction fails. -/
theorem close_session_removal_cex :
    let ctrl : Ctrl := { instances := ["ezcad_7"], closeCalls := [] }
    (closeEzcad envCloseRaises ctrl "ezcad_7").1 = false
    ∧ "ezcad_7" ∈ (closeEzcad envCloseRaises ctrl "ezcad_7").2.instances := by
  decide

/-- Claim C6 (amended): for a tracked window id, `close_ezcad` removes
the session whenever `window.close()` itself returns (and always in the
simulated branch), and the outcome is independent of whether the
save-prompt dismissal fails — that failure is swallowed; but when
`window.close()` raises in the real branch, the session is not removed
and failure is returned. -/
theorem close_session_removal_amended (env : Env) (ctrl : Ctrl) (wid : String)
    (h : wid ∈ ctrl.instances) :
    (env.windowCloseRaises = false →
      (closeEzcad env ctrl wid).1 = true ∧ wid ∉ (closeEzcad env ctrl wid).2.instances)
    ∧ (env.simulated = true →
      (closeEzcad env ctrl wid).1 = true ∧ wid ∉ (closeEzcad env ctrl wid).2.instances)
    ∧ (∀ b : Bool,
        closeEzcad { env with saveDialogRaises := b } ctrl wid = closeEzcad env ctrl wid)
    ∧ (env.simulated = false → env.windowCloseRaises = true →
      (closeEzcad env ctrl wid).1 = false
      ∧ (closeEzcad env ctrl wid).2.instances = ctrl.instances) := by
  obtain ⟨sim, chk, wcr, sdr⟩ := env
  cases sim <;> cases wcr <;>
    simp [closeEzcad, removeKey, h, List.mem_filter]

/-- Claim C6 witness: instantiates the amended theorem at a tracked
window with a non-raising close, extracting that the session is
removed. -/
theorem close_session_removal_amended_w :
    "ezcad_7" ∈ ({ instances := ["ezcad_7"], closeCalls := [] } : Ctrl).instances
    ∧ ((closeEzcad envRealOk { instances := ["ezcad_7"], closeCalls := [] } "ezcad_7").1 = true
      ∧ "ezcad_7" ∉
        (closeEzcad envRealOk { instances := ["ezcad_7"], closeCalls := [] } "ezcad_7").2.instances) :=
  ⟨by decide,
    (close_session_removal_amended envRealOk
      { instances := ["ezcad_7"], closeCalls := [] } "ezcad_7" (by decide)).1 rfl⟩

/-! ## Claim C7 -/

/-- Claim C7 counterexample: in the simulated variant, `send_command`
on a tracked session reports success for the unrecognized command
string `bogus`, against the claim that unrecognized commands fail in
both variants. -/
theorem send_command_unknown_cex :
    let ctrl : Ctrl := { instances := ["sim_ezcad_1"], closeCalls := [] }
    (sendCommand envSim ctrl "sim_ezcad_1" "bogus").1 = true := by
  decide

/-- Claim C7 (amended): `send_command` never mutates the tracked
session collection; in the real variant a command outside the
recognized set (lowercased `red` or `mark`) always returns failure; in
the simulated variant every command on a tracked session returns
success, so the simulated contract differs from the real one. -/
theorem send_command_unknown_amended (env : Env) (ctrl : Ctrl) (wid command : String) :
    (sendCommand env ctrl wid command).2 = ctrl
    ∧ (env.simulated = false → pyLower command ≠ "red" → pyLower command ≠ "mark" →
        (sendCommand env ctrl wid command).1 = false)
    ∧ (env.simulated = true → wid ∈ ctrl.instances →
        (sendCommand env ctrl wid command).1 = true) := by
  refine ⟨sendCommand_state env ctrl wid command, ?_, ?_⟩
  · intro hsim hr hm
    unfold sendCommand
    split_ifs <;> simp_all
  · intro hsim hmem
    unfold sendCommand
    simp [hsim, hmem]

/-- Claim C7 witness: instantiates the amended theorem in the real
variant at the unrecognized command `bogus`, extracting that it
fails. -/
theorem send_command_unknown_amended_w :
    envRealOk.simulated = false
    ∧ pyLower "bogus" ≠ "red"
    ∧ pyLower "bogus" ≠ "mark"
    ∧ (sendCommand envRealOk
        { instances := ["ezcad_7"], closeCalls := [] } "ezcad_7" "bogus").1 = false :=
  ⟨rfl, by decide, by decide,
    (send_command_unknown_amended envRealOk
      { instances := ["ezcad_7"], closeCalls := [] } "ezcad_7" "bogus").2.1
      rfl (by decide) (by decide)⟩

/-! ## Claim C2 -/

/-- Claim C2 counterexample: an `ezd` job whose `start_ezcad`
succeeds. `process_ezd` returns the success dict, yet no `close_ezcad`
invocation happened and the returned window id is still in the tracked
session collection, against the claimed close-exactly-once-on-the-way-out
behaviour. -/
theorem ezd_session_leak_cex :
    let r := processEzd { instances := [], closeCalls := [] } "/w/f.ezd" (some "ezcad_1") none
    r.1 = JobResult.ezdOk "ezcad_1" "/w/f.ezd"
    ∧ "ezcad_1" ∈ r.2.1.instances
    ∧ r.2.1.closeCalls = [] := by
  decide

/-- Claim C2 (amended): the `ezd` job path (`process_ezd`) starts a
session and deliberately leaves it open — it records the file as
`last_ezd_file`, performs no close invocation and the window id stays
tracked. The close-on-the-way-out discipline instead belongs to the
Excel batch path: whenever `_process_batch` starts a session, its
`finally` block invokes `close_ezcad` on it exactly once, whether the
row loop completes or raises (any injected fault included). -/
theorem ezd_session_close_amended :
    (∀ (ctrl : Ctrl) (f wid : String) (last : Option String),
      (processEzd ctrl f (some wid) last).1 = JobResult.ezdOk wid f
      ∧ wid ∈ (processEzd ctrl f (some wid) last).2.1.instances
      ∧ (processEzd ctrl f (some wid) last).2.1.closeCalls = ctrl.closeCalls
      ∧ (processEzd ctrl f (some wid) last).2.2 = some f)
    ∧ (∀ (env : Env) (e : String) (ctrl : Ctrl) (batch : List Nat)
        (bi : Nat) (wid : String) (faultRow : Option Nat),
        (processBatch env (some e) ctrl batch bi (some wid) faultRow).2.closeCalls
          = ctrl.closeCalls ++ [wid]) := by
  constructor
  · intro ctrl f wid last
    exact ⟨rfl, by simp [processEzd, startEzcad], rfl, rfl⟩
  · intro env e ctrl batch bi wid faultRow
    have hstate := batchLoop_state env wid batch
      { ctrl with instances := ctrl.instances ++ [wid] } faultRow 0 0 []
    cases hr : (batchLoop env { ctrl with instances := ctrl.instances ++ [wid] }
        wid batch faultRow 0 0 []).1 with
    | ok v => simp [processBatch, startEzcad, hr, closeEzcad_closeCalls, hstate]
    | error m => simp [processBatch, startEzcad, hr, closeEzcad_closeCalls, hstate]

/-! ## Claim C3 -/

/-- Claim C3 counterexample: an `excel` job whose spreadsheet load
fails. `process_excel` catches the `ValueError` itself and returns the
`{'error': ...}` dict as its value, so the worker stores that dict in
`result` and marks the job COMPLETED with the `error` field unset —
against the claimed FAILED status and populated `error` field. -/
theorem excel_job_error_path_cex :
    let res := (processExcel envRealOk "/w/missing.xls" none false 10 none
      { instances := [], closeCalls := [] } [] none none).1
    let final := runWorkerBody (mkJob 1000 "/w/missing.xls" "excel" 1)
      (workerDispatch "excel" res (JobResult.ezdFail "unused")) 5 6
    final.status = JobStatus.completed
    ∧ final.status ≠ JobStatus.failed
    ∧ final.error = none
    ∧ final.result = some (JobResult.errDict "Failed to load Excel file: /w/missing.xls") := by
  decide

/-- Claim C3 (amended): `process_excel` catches every internal
exception and always returns a value, so an `excel` job always ends
COMPLETED with the returned dict in `result` and `error` unset — a
failed load yields the `errDict` result, a successful non-batched run
yields the row-summary result; the worker FAILED path (message in
`error`, `result` untouched) is reached only by exceptions that escape
the processor dispatch, i.e. an unknown job type. -/
theorem excel_job_error_path_amended :
    (∀ (env : Env) (file : String) (bp : Bool) (bs : Nat) (cfg : Option String)
        (ctrl : Ctrl) (wids : List (Option String)) (ew : Option String)
        (fr : Option Nat) (j : Job) (t₁ t₂ : Nat) (zr : JobResult),
      runWorkerBody j (workerDispatch "excel"
          (processExcel env file none bp bs cfg ctrl wids ew fr).1 zr) t₁ t₂
        = { j with
            status := JobStatus.completed,
            start_time := some t₁,
            end_time := some t₂,
            result := some (JobResult.errDict ("Failed to load Excel file: " ++ file)) })
    ∧ (∀ (env : Env) (file : String) (rows : List Nat) (cfg : Option String)
        (ctrl : Ctrl) (ew : Option String) (j : Job) (t₁ t₂ : Nat) (zr : JobResult),
      ∃ processed errs,
        runWorkerBody j (workerDispatch "excel"
            (processExcel env file (some rows) false 10 cfg ctrl [] ew none).1 zr) t₁ t₂
          = { j with
              status := JobStatus.completed,
              start_time := some t₁,
              end_time := some t₂,
              result := some (JobResult.excelEntire rows.length processed errs) })
    ∧ (∀ (jt : String) (j : Job) (t₁ t₂ : Nat) (er zr : JobResult),
        jt ≠ "excel" → jt ≠ "ezd" →
        runWorkerBody j (workerDispatch jt er zr) t₁ t₂
          = { j with
              status := JobStatus.failed,
              start_time := some t₁,
              end_time := some t₂,
              error := some ("Unknown job type: " ++ jt) }) := by
  refine ⟨?_, ?_, ?_⟩
  · intro env file bp bs cfg ctrl wids ew fr j t₁ t₂ zr
    rfl
  · intro env file rows cfg ctrl ew j t₁ t₂ zr
    rcases cfg with _ | e
    · exact ⟨false, ["No EZD file configured for processing"], rfl⟩
    · rcases ew with _ | w
      · exact ⟨false, ["Failed to start EZCAD"], rfl⟩
      · exact ⟨true, [], rfl⟩
  · intro jt j t₁ t₂ er zr hx hz
    unfold workerDispatch
    rw [if_neg hx, if_neg hz]
    rfl

/-- Claim C3 witness: instantiates the unknown-job-type conjunct of the
amended theorem at job type `bogus`. -/
theorem excel_job_error_path_amended_w :
    ("bogus" : String) ≠ "excel" ∧ ("bogus" : String) ≠ "ezd"
    ∧ runWorkerBody (mkJob 1000 "/w/x.bin" "bogus" 1)
        (workerDispatch "bogus" (JobResult.errDict "unused") (JobResult.ezdFail "unused")) 5 6
      = { mkJob 1000 "/w/x.bin" "bogus" 1 with
          status := JobStatus.failed,
          start_time := some 5,
          end_time := some 6,
          error := some ("Unknown job type: " ++ "bogus") } :=
  ⟨by decide, by decide,
    excel_job_error_path_amended.2.2 "bogus" (mkJob 1000 "/w/x.bin" "bogus" 1) 5 6
      (JobResult.errDict "unused") (JobResult.ezdFail "unused") (by decide) (by decide)⟩

/-! ## Claim C8 -/

/-- Claim C8 counterexample: with the default patterns, the lowercase
path is accepted but the path differing only in letter case is
rejected, against the claimed case-insensitive matching. -/
theorem file_pattern_case_cex :
    isValidFile (parsePatterns "*.xls;*.xlsx") "/w/a.xls" = true
    ∧ isValidFile (parsePatterns "*.xls;*.xlsx") "/w/A.XLS" = false := by
  decide

/-- Claim C8 (amended): pattern parsing strips the leading star of each
semicolon-separated `*.ext` fragment (the default `*.xls;*.xlsx`
becomes `.xls` and `.xlsx`), and the file-match test accepts a path
exactly when some configured pattern is a case-sensitive suffix of the
full path. -/
theorem file_pattern_match_amended :
    parsePatterns "*.xls;*.xlsx" = [".xls", ".xlsx"]
    ∧ (∀ (pats : List String) (path : String),
        isValidFile pats path = true ↔ ∃ p ∈ pats, p.data <:+ path.data) := by
  constructor
  · decide
  · intro pats path
    simp [isValidFile, pyEndsWith, List.any_eq_true, List.isSuffixOf_iff_suffix]

/-! ## Claim C9 -/

theorem dictLookup_eq_none {α : Type} (l : List (String × α)) (k : String)
    (h : k ∉ l.map Prod.fst) : dictLookup l k = none := by
  induction l with
  | nil => rfl
  | cons p t ih =>
    obtain ⟨a, b⟩ := p
    simp only [List.map_cons, List.mem_cons] at h
    push_neg at h
    simp [dictLookup, Ne.symm h.1, ih h.2]

theorem cfgSet_append (c₁ c₂ : ConfigData) (s k v : String) :
    cfgSet (c₁ ++ c₂) s k v = cfgSet c₁ s k v ++ cfgSet c₂ s k v := by
  simp [cfgSet]

theorem cfgSet_not_mem (c : ConfigData) (s k v : String) (h : s ∉ c.map Prod.fst) :
    cfgSet c s k v = c := by
  induction c with
  | nil => rfl
  | cons p t ih =>
    obtain ⟨a, b⟩ := p
    simp only [List.map_cons, List.mem_cons] at h
    push_neg at h
    simp only [cfgSet, List.map_cons] at ih ⊢
    rw [if_neg (Ne.symm h.1), ih h.2]

theorem cfgSet_single (s k v : String) (kvs : List (String × String)) :
    cfgSet [(s, kvs)] s k v = [(s, dictInsert kvs (optionxform k) v)] := by
  simp [cfgSet]

theorem cfgSet_fold (s : String) (c₁ : ConfigData) (hs : s ∉ c₁.map Prod.fst) :
    ∀ (todo done : List (String × String)),
      ((done ++ todo).map Prod.fst).Nodup →
      (∀ kv ∈ todo, optionxform kv.1 = kv.1) →
      todo.foldl (fun acc kv => cfgSet acc s kv.1 kv.2) (c₁ ++ [(s, done)])
        = c₁ ++ [(s, done ++ todo)]
  | [], done, _, _ => by simp
  | (k, v) :: rest, done, hnd, hlc => by
    rw [List.foldl_cons]
    have hx : optionxform k = k := hlc (k, v) (List.mem_cons_self _ _)
    have hnd₂ : (done.map Prod.fst ++ (k, v).1 :: rest.map Prod.fst).Nodup := by
      simpa using hnd
    have hk : k ∉ done.map Prod.fst := by
      intro hmem
      exact (List.nodup_append.mp hnd₂).2.2 hmem (by simp)
    have hstep : cfgSet (c₁ ++ [(s, done)]) s k v = c₁ ++ [(s, done ++ [(k, v)])] := by
      rw [cfgSet_append, cfgSet_not_mem c₁ s k v hs, cfgSet_single, hx,
        dictInsert_of_not_mem done k v hk]
    rw [hstep]
    have hrec := cfgSet_fold s c₁ hs rest (done ++ [(k, v)])
      (by simpa [List.append_assoc] using hnd)
      (fun kv hm => hlc kv (List.mem_cons_of_mem _ hm))
    rw [hrec, List.append_assoc, List.singleton_append]

theorem loadSection_eq (c : ConfigData) (s : String) (opts : List (String × String))
    (hs : s ∉ c.map Prod.fst) (hw : wfSection opts) :
    loadSection c s opts = c ++ [(s, opts)] := by
  unfold loadSection
  have hns : hasSection c s = false := by
    unfold hasSection
    rw [dictLookup_eq_none c s hs]
    rfl
  rw [hns]
  have := cfgSet_fold s c hs opts [] (by simpa using hw.1) hw.2
  simpa [addSection] using this

theorem loadProfile_aux :
    ∀ (todo : List (String × List (String × String))) (acc : ConfigData),
      ((acc ++ todo.filter (fun sec => sec.1 ≠ "Metadata")).map Prod.fst).Nodup →
      (∀ sec ∈ todo, sec.1 ≠ "Metadata" → wfSection sec.2) →
      todo.foldl
        (fun acc sec => if sec.1 = "Metadata" then acc else loadSection acc sec.1 sec.2) acc
        = acc ++ todo.filter (fun sec => sec.1 ≠ "Metadata")
  | [], acc, _, _ => by simp
  | (s, opts) :: rest, acc, hnd, hwf => by
    by_cases hs : s = "Metadata"
    · subst hs
      rw [List.foldl_cons]
      simp only [if_pos rfl]
      have hfe : ((("Metadata" : String), opts) :: rest).filter (fun sec => sec.1 ≠ "Metadata")
          = rest.filter (fun sec => sec.1 ≠ "Metadata") := by
        simp
      rw [hfe] at hnd ⊢
      exact loadProfile_aux rest acc hnd
        (fun sec hm hne => hwf sec (List.mem_cons_of_mem _ hm) hne)
    · rw [List.foldl_cons]
      simp only [if_neg hs]
      have hfe : ((s, opts) :: rest).filter (fun sec => sec.1 ≠ "Metadata")
          = (s, opts) :: rest.filter (fun sec => sec.1 ≠ "Metadata") := by
        simp [hs]
      rw [hfe] at hnd ⊢
      have hnd₂ : (acc.map Prod.fst
          ++ ((s, opts) :: rest.filter (fun sec => sec.1 ≠ "Metadata")).map Prod.fst).Nodup := by
        rw [← List.map_append]
        exact hnd
      have hsacc : s ∉ acc.map Prod.fst := by
        intro hmem
        exact (List.nodup_append.mp hnd₂).2.2 hmem (by simp)
      rw [loadSection_eq acc s opts hsacc (hwf (s, opts) (List.mem_cons_self _ _) hs)]
      have hrec := loadProfile_aux rest (acc ++ [(s, opts)])
        (by simpa [List.append_assoc] using hnd)
        (fun sec hm hne => hwf sec (List.mem_cons_of_mem _ hm) hne)
      rw [hrec, List.append_assoc, List.singleton_append]

/-- Claim C9: saving the configuration as a profile and loading that
profile back replaces the active configuration (whatever it was) with
exactly the saved sections, the `Metadata` section excluded: every
section present in the profile keeps identical key/value contents, no
section of the previous active configuration survives, and the result
carries no `Metadata` section. -/
theorem profile_round_trip (c : ConfigData) (name ts : String) (h : wfConfig c) :
    (∀ old : ConfigData,
      loadProfileInto old (saveProfileData c name ts)
        = c.filter (fun sec => sec.1 ≠ "Metadata"))
    ∧ "Metadata" ∉ (loadProfileData (saveProfileData c name ts)).map Prod.fst := by
  have hfilter : (saveProfileData c name ts).filter (fun sec => sec.1 ≠ "Metadata")
      = c.filter (fun sec => sec.1 ≠ "Metadata") := by
    unfold saveProfileData
    apply filter_dictInsert_of_false
    intro b
    simp
  have hnodup :
      (((saveProfileData c name ts).filter (fun sec => sec.1 ≠ "Metadata")).map Prod.fst).Nodup := by
    rw [hfilter]
    exact h.1.sublist ((c.filter_sublist).map Prod.fst)
  have hwf : ∀ sec ∈ saveProfileData c name ts, sec.1 ≠ "Metadata" → wfSection sec.2 := by
    intro sec hmem hne
    rcases mem_dictInsert c "Metadata" (profileMeta name ts) sec hmem with h' | h'
    · exact absurd (by rw [h']) hne
    · exact h.2 sec h'
  have hmain : loadProfileData (saveProfileData c name ts)
      = c.filter (fun sec => sec.1 ≠ "Metadata") := by
    unfold loadProfileData
    rw [loadProfile_aux (saveProfileData c name ts) [] (by simpa using hnodup) hwf]
    rw [List.nil_append, hfilter]
  constructor
  · intro old
    exact hmain
  · rw [hmain]
    intro hmem
    obtain ⟨sec, hsec, hfst⟩ := List.mem_map.mp hmem
    have := List.of_mem_filter hsec
    simp [hfst] at this

/-- Claim C9 witness: the round trip at the default configuration of
`_create_default_config` (which is well-formed), loaded over an empty
active configuration. -/
theorem profile_round_trip_w :
    wfConfig defaultConfig
    ∧ loadProfileInto [] (saveProfileData defaultConfig "p1" "2026-10-12T00:00:00")
      = defaultConfig.filter (fun sec => sec.1 ≠ "Metadata") :=
  ⟨by decide,
    (profile_round_trip defaultConfig "p1" "2026-10-12T00:00:00" (by decide)).1 []⟩

end Ezcad
